import Mathlib

/-!
Shallow embedding of the COBOL roadmap analyzers (RoadMap.07.py and
RoadMapCalls.py / RoadMapCalls.01.py) and proofs about the claims of the
specification.  Lines of source text are modelled as lists of characters
with Python string semantics restricted to ASCII (the analyzers only ever
compare against ASCII keywords and the fixed-format column conventions are
ASCII-based).
-/

/-- Lines of text are lists of characters. -/
abbrev Str : Type := List Char

/-- Conversion from a Lean string literal to the line representation. -/
def txt (s : String) : Str := s.data

/-- Python whitespace predicate, restricted to the six ASCII whitespace
characters recognized by str.strip and str.split. -/
def pyIsSpace (c : Char) : Bool :=
  c = ' ' || c = '\t' || c = '\n' || c = '\r' || c = '\x0b' || c = '\x0c'

/-- Lookup of a character in a translation table, the character itself
when absent. -/
def buscaPar : List (Char × Char) → Char → Char
  | [], c => c
  | (a, b) :: t, c => if c = a then b else buscaPar t c

/-- The lowercase ASCII letters. -/
def minusculas : Str := txt (r"abcdefghijklmnopqrstuvwxyz")

/-- The uppercase ASCII letters. -/
def mayusculas : Str := txt (r"ABCDEFGHIJKLMNOPQRSTUVWXYZ")

/-- ASCII uppercase of one character, the effect of Python str.upper on the
character data the analyzers handle, as a translation table. -/
def pyUpperC (c : Char) : Char := buscaPar (minusculas.zip mayusculas) c

/-- Python str.upper over a whole line. -/
def pyUpper (s : Str) : Str := s.map pyUpperC

/-- Python str.lstrip with no argument. -/
def pyLstrip (s : Str) : Str := s.dropWhile pyIsSpace

/-- Python str.rstrip with no argument. -/
def pyRstrip (s : Str) : Str := ((s.reverse).dropWhile pyIsSpace).reverse

/-- Python str.strip with no argument. -/
def pyStrip (s : Str) : Str := pyLstrip (pyRstrip s)

/-- Worker for pySplit: acc holds the characters of the word currently
being read, most recent first. -/
def pySplitAcc : Str → Str → List Str
  | acc, [] => if acc.isEmpty then [] else [acc.reverse]
  | acc, c :: cs =>
    if pyIsSpace c then
      if acc.isEmpty then pySplitAcc [] cs else acc.reverse :: pySplitAcc [] cs
    else pySplitAcc (c :: acc) cs

/-- Python str.split with no argument: split on runs of whitespace,
discarding empty tokens. -/
def pySplit (s : Str) : List Str := pySplitAcc [] s

/-- Does the line start with the given pattern. -/
def listStarts (pat s : Str) : Bool :=
  match pat, s with
  | [], _ => true
  | _ :: _, [] => false
  | p :: ps, c :: cs => p = c && listStarts ps cs

/-- Python substring containment, the operator in of str. -/
def contiene (s pat : Str) : Bool :=
  match s with
  | [] => pat.isEmpty
  | _ :: cs => listStarts pat s || contiene cs pat

/-- Python str.rstrip with argument a period: drop trailing periods. -/
def pyRstripPunto (s : Str) : Str :=
  ((s.reverse).dropWhile (fun c => c = '.')).reverse

/-- Regex character class for ASCII letters. -/
def isAsciiLetter (c : Char) : Bool :=
  ('A' ≤ c && c ≤ 'Z') || ('a' ≤ c && c ≤ 'z')

/-- Regex character class for ASCII digits. -/
def isDigitChar (c : Char) : Bool := '0' ≤ c && c ≤ '9'

/-- The class of the first character of a paragraph label in the label
regex of detectar_parrafo: letters and digits, case-insensitively. -/
def isNameStart (c : Char) : Bool := isAsciiLetter c || isDigitChar c

/-- The class of the remaining characters of a paragraph label: letters,
digits and hyphens, case-insensitively. -/
def isNameChar (c : Char) : Bool := isNameStart c || c = '-'

/-- The regex word-character class backslash-w: letters, digits,
underscore. -/
def isWordChar (c : Char) : Bool :=
  isAsciiLetter c || isDigitChar c || c = '_'

/-- Case-insensitive literal match at the start of a line, with the
pattern given in uppercase; models a literal inside a regex compiled with
re.IGNORECASE. -/
def ciStarts (pat s : Str) : Bool :=
  match pat, s with
  | [], _ => true
  | _ :: _, [] => false
  | p :: ps, c :: cs => p = pyUpperC c && ciStarts ps cs

/-- First index of an element in a list, the behaviour of Python
list.index wrapped in an Option for the ValueError case. -/
def indiceDe (x : Str) : List Str → Option Nat
  | [] => none
  | y :: ys => if y = x then some 0 else (indiceDe x ys).map (fun n => n + 1)

namespace RoadMap07

/-- Line classifier of RoadMap.07.py: a line can be skipped when it is the
empty string, or it has at least seven characters and holds a star at
zero-based index six. -/
def es_linea_ignorable (linea : Str) : Bool :=
  linea.isEmpty || (decide (7 ≤ linea.length) && (linea.getD 6 ' ' = '*'))

/-- Right word-boundary test of the regex: the position after the literal
is the end of the input or a character outside the word class. -/
def bordePalabraDer (l : Str) : Bool :=
  match l with
  | [] => true
  | c :: _ => !isWordChar c

/-- Tail test of the label regex of detectar_parrafo: after the captured
group, optional whitespace and then either a period or the word SECTION
delimited by word boundaries.  The argument name is the text captured so
far (nonempty), used for the left word-boundary of SECTION when no
whitespace intervenes. -/
def colaEtiqueta (name : Str) (tail : Str) : Bool :=
  let spaces := tail.takeWhile pyIsSpace
  let tail2 := tail.dropWhile pyIsSpace
  match tail2 with
  | [] => false
  | c :: _ =>
    if c = '.' then true
    else
      ciStarts (txt (r"SECTION")) tail2 &&
      (decide (0 < spaces.length) || !isWordChar (name.getLastD ' ')) &&
      bordePalabraDer (tail2.drop 7)

/-- Greedy match with backtracking of the bounded repetition of the label
regex: try the capture of length k+1 first and shrink on failure, exactly
the order a backtracking engine explores. -/
def buscaK (c : Char) (rest : Str) : Nat → Option Str
  | 0 => if colaEtiqueta [c] rest then some [c] else none
  | k + 1 =>
    let name := c :: rest.take (k + 1)
    if colaEtiqueta name (rest.drop (k + 1)) then some name
    else buscaK c rest k

/-- Anchored match of the label regex of detectar_parrafo: optional
whitespace, a capture of one letter or digit followed by up to sixty
letters, digits or hyphens, optional whitespace, then a period or the word
SECTION; case-insensitive.  Returns the captured group. -/
def matchLabel (s : Str) : Option Str :=
  match s.dropWhile pyIsSpace with
  | [] => none
  | c :: rest =>
    if isNameStart c then
      buscaK c rest (min 60 (rest.takeWhile isNameChar).length)
    else none

/-- Reserved words excluded from being paragraph names. -/
def excluidos : List Str :=
  [txt (r"VARYING"), txt (r"UNTIL"), txt (r"WITH"), txt (r"END-IF"),
   txt (r"END-EXEC"), txt (r"STOP"), txt (r"STOP-RUN"), txt (r"EXIT"),
   txt (r"CONTINUE"), txt (r"PERFORM"), txt (r"EVALUATE"), txt (r"IF"),
   txt (r"ELSE"), txt (r"MOVE"), txt (r"SET")]

/-- Statement keywords whose presence at the start of the code area stops
paragraph detection, each followed by a space as in the source. -/
def palabrasClave : List Str :=
  [txt (r"PERFORM "), txt (r"IF "), txt (r"ELSE "), txt (r"EVALUATE "),
   txt (r"MOVE "), txt (r"SET ")]

/-- Does the stripped, upper-cased code area start with one of the
statement keywords. -/
def empiezaConClave (code_area : Str) : Bool :=
  palabrasClave.any (fun kw => listStarts kw (pyUpper (pyStrip code_area)))

/-- Paragraph boundary detector of RoadMap.07.py. -/
def detectar_parrafo (linea : Str) : Option Str :=
  if linea.isEmpty || (pyStrip linea).isEmpty then none
  else if decide (7 ≤ linea.length) && (linea.getD 6 ' ' = '*') then none
  else
    let code_area := if decide (7 < linea.length) then linea.drop 7
                     else pyLstrip linea
    if empiezaConClave code_area then none
    else
      match matchLabel code_area with
      | none => none
      | some m =>
        let posible := pyStrip m
        if pyUpper posible ∈ excluidos then none else some posible

/-- Rendering of claim C4: the same conditions stated as one conjunction,
checked after the regex match instead of interleaved with it. -/
def detectar_parrafo_claim (linea : Str) : Option Str :=
  if linea.isEmpty || (pyStrip linea).isEmpty then none
  else if decide (7 ≤ linea.length) && (linea.getD 6 ' ' = '*') then none
  else
    let code_area := if decide (7 < linea.length) then linea.drop 7
                     else pyLstrip linea
    match matchLabel code_area with
    | none => none
    | some m =>
      if empiezaConClave code_area || pyUpper (pyStrip m) ∈ excluidos then none
      else some (pyStrip m)

/-- Continuation words that are not PERFORM targets. -/
def continuaciones : List Str :=
  [txt (r"VARYING"), txt (r"UNTIL"), txt (r"WITH"), txt (r"END-IF"),
   txt (r"END-EXEC"), txt (r"STOP RUN"), txt (r"EXIT"), txt (r"CONTINUE")]

/-- PERFORM target detector of RoadMap.07.py. -/
def detectar_perform (linea : Str) : Option Str :=
  if contiene (pyUpper linea) (txt (r"PERFORM")) then
    let partes := pySplit (pyUpper (pyStrip linea))
    match indiceDe (txt (r"PERFORM")) partes with
    | none => none
    | some idx =>
      match partes.get? (idx + 1) with
      | none => none
      | some tok =>
        let destino := pyRstripPunto tok
        if destino ∈ continuaciones then none else some destino
  else none

/-- Rendering of claim C5: tokenize the upper-cased line on whitespace,
reject when the token PERFORM is absent or last, otherwise take the next
token with trailing periods stripped unless it is a continuation word. -/
def detectar_perform_claim (linea : Str) : Option Str :=
  let partes := pySplit (pyUpper linea)
  match indiceDe (txt (r"PERFORM")) partes with
  | none => none
  | some idx =>
    match partes.get? (idx + 1) with
    | none => none
    | some tok =>
      let destino := pyRstripPunto tok
      if destino ∈ continuaciones then none else some destino

end RoadMap07

/-- Non-overlapping scan of re.finditer: walk the text left to right, at
each position outside a previous match attempt the pattern matcher, which
returns the captured group and the number of characters the whole match
consumed; resume after the match. -/
def finditerAux (try1 : Str → Option (Str × Nat)) : Str → Nat → List Str
  | [], _ => []
  | _ :: cs, skip + 1 => finditerAux try1 cs skip
  | c :: cs, 0 =>
    match try1 (c :: cs) with
    | some (cap, k) => cap :: finditerAux try1 cs (k - 1)
    | none => finditerAux try1 cs 0

/-- All captures of a pattern over a text, leftmost first,
non-overlapping. -/
def finditer (try1 : Str → Option (Str × Nat)) (s : Str) : List Str :=
  finditerAux try1 s 0

/-- Match of a regex tail of shape whitespace-plus capture-word-plus:
a nonempty whitespace run followed by a nonempty word-character run,
returning the captured word and the length consumed. -/
def espYPalabra (s : Str) : Option (Str × Nat) :=
  let sp := s.takeWhile pyIsSpace
  if sp.isEmpty then none
  else
    let w := (s.drop sp.length).takeWhile isWordChar
    if w.isEmpty then none
    else some (w, sp.length + w.length)

/-- Lazy scan of the dot-star-question part of the SELECT pattern: find
the earliest position where FROM followed by whitespace and a word
matches, never letting the gap cross a newline. -/
def buscaFromLazy : Str → Nat → Option (Str × Nat)
  | [], _ => none
  | c :: cs, n =>
    match
      (if listStarts (txt (r"FROM")) (c :: cs) then
        match espYPalabra ((c :: cs).drop 4) with
        | some (w, k) => some (w, n + 4 + k)
        | none => none
      else none) with
    | some r => some r
    | none => if c = '\n' then none else buscaFromLazy cs (n + 1)

/-- Matcher of the pattern SELECT space dot-star-question FROM
whitespace-plus word-plus at the current position. -/
def matchSelectAt (s : Str) : Option (Str × Nat) :=
  if listStarts (txt (r"SELECT ")) s then
    match buscaFromLazy (s.drop 7) 0 with
    | some (w, k) => some (w, 7 + k)
    | none => none
  else none

/-- Matcher of a pattern of shape keyword whitespace-plus capture at the
current position, used for UPDATE, OPEN, CLOSE and FETCH. -/
def matchKwWordAt (kw : Str) (s : Str) : Option (Str × Nat) :=
  if listStarts kw s then
    match espYPalabra (s.drop kw.length) with
    | some (w, k) => some (w, kw.length + k)
    | none => none
  else none

/-- Matcher of a pattern of shape keyword whitespace-plus keyword
whitespace-plus capture, used for INSERT INTO and DELETE FROM. -/
def matchKw2WordAt (kw1 kw2 : Str) (s : Str) : Option (Str × Nat) :=
  if listStarts kw1 s then
    let t := s.drop kw1.length
    let sp := t.takeWhile pyIsSpace
    if sp.isEmpty then none
    else if listStarts kw2 (t.drop sp.length) then
      match espYPalabra (t.drop (sp.length + kw2.length)) with
      | some (w, k) => some (w, kw1.length + sp.length + kw2.length + k)
      | none => none
    else none
  else none

namespace RoadMap07

/-- SQL statement extractor of RoadMap.07.py: each statement kind is an
independent regex pass over the upper-cased block, passes appended in the
fixed order of the source, with parameterless COMMIT and ROLLBACK found by
substring tests. -/
def extraer_sentencias_sql (bloque_sql : Str) : List (Str × Str) :=
  let b := pyUpper bloque_sql
  (finditer matchSelectAt b).map (fun t => (txt (r"SELECT"), t)) ++
  (finditer (matchKw2WordAt (txt (r"INSERT")) (txt (r"INTO"))) b).map
    (fun t => (txt (r"INSERT"), t)) ++
  (finditer (matchKwWordAt (txt (r"UPDATE"))) b).map
    (fun t => (txt (r"UPDATE"), t)) ++
  (finditer (matchKw2WordAt (txt (r"DELETE")) (txt (r"FROM"))) b).map
    (fun t => (txt (r"DELETE"), t)) ++
  (finditer (matchKwWordAt (txt (r"OPEN"))) b).map
    (fun t => (txt (r"OPEN CURSOR"), t)) ++
  (finditer (matchKwWordAt (txt (r"CLOSE"))) b).map
    (fun t => (txt (r"CLOSE CURSOR"), t)) ++
  (finditer (matchKwWordAt (txt (r"FETCH"))) b).map
    (fun t => (txt (r"FETCH CURSOR"), t)) ++
  (if contiene b (txt (r"COMMIT")) then [(txt (r"COMMIT"), [])] else []) ++
  (if contiene b (txt (r"ROLLBACK")) then [(txt (r"ROLLBACK"), [])] else [])

end RoadMap07

/-- Ordered mapping from node names to ordered lists of strings, the shape
of the Python dictionaries of the analyzers. -/
abbrev Grafo : Type := List (Str × List Str)

/-- The keys of the mapping, in insertion order. -/
def claves (g : Grafo) : List Str := g.map Prod.fst

/-- Lookup of a key. -/
def busca : Grafo → Str → Option (List Str)
  | [], _ => none
  | (k, v) :: t, x => if k = x then some v else busca t x

/-- Append one value to the list stored at an existing key; identity when
the key is absent. -/
def anexa : Grafo → Str → Str → Grafo
  | [], _, _ => []
  | (k, v) :: t, x, d => if k = x then (k, v ++ [d]) :: t else (k, v) :: anexa t x d

/-- The setdefault-then-append idiom of the source: append to the list of
the key, creating the key at the end of the mapping when absent. -/
def setdefaultAnexa (g : Grafo) (x d : Str) : Grafo :=
  if x ∈ claves g then anexa g x d else g ++ [(x, [d])]

namespace RoadMap07

/-- Body of the reading loop of procesar_bloque_sql: collect the stripped
lines of the file up to and including the first line containing END-EXEC,
and return them with the remaining lines of the file. -/
def leerBloque : List Str → List Str × List Str
  | [] => ([], [])
  | l :: t =>
    if contiene (pyUpper l) (txt (r"END-EXEC")) then ([pyStrip l], t)
    else
      let br := leerBloque t
      (pyStrip l :: br.1, br.2)

/-- Python str.join with a single space. -/
def juntaEspacios : List Str → Str
  | [] => []
  | [x] => x
  | x :: xs => x ++ ' ' :: juntaEspacios xs

/-- SQL block processor of RoadMap.07.py: consume lines of the open file
until END-EXEC, join and upper-case the block, and record every extracted
statement as an annotation tipo-ellipsis-tabla under the current
paragraph.  Returns the updated annotation mapping and the rest of the
file. -/
def procesar_bloque_sql (archivo : List Str) (parrafo_actual : Str)
    (selects_por_parrafo : Grafo) : Grafo × List Str :=
  let br := leerBloque archivo
  let bloque_completo := pyUpper (juntaEspacios br.1)
  let selects := (extraer_sentencias_sql bloque_completo).foldl
      (fun acc par =>
        setdefaultAnexa acc parrafo_actual (par.1 ++ txt (r" ... ") ++ par.2))
      selects_por_parrafo
  (selects, br.2)

/-- Reachability filter of RoadMap.07.py, with the Python dynamic failure
modelled in the error of the Except monad: popping works on the tail of
the list, so the Python list is kept reversed in pendientes, and the
extend call of the source appends the successors of a destination that is
not a key, which is the empty default.  The fuel argument bounds the loop
and is chosen ample by the caller: the loop runs exactly once per element
of the initial pendientes because the extension is always empty. -/
def procesaPendientes (llamadas : Grafo) (origen : Str) :
    Nat → List Str → Grafo → Except Str Grafo
  | 0, _, resultado => .ok resultado
  | _ + 1, [], resultado => .ok resultado
  | fuel + 1, destino :: ps, resultado =>
    if destino ∈ claves resultado then
      procesaPendientes llamadas origen fuel ps resultado
    else if destino ∈ claves llamadas then
      if origen ∈ claves resultado then
        procesaPendientes llamadas origen fuel ps (anexa resultado origen destino)
      else .error origen
    else
      procesaPendientes llamadas origen fuel
        (((busca llamadas destino).getD []).reverse ++ ps) resultado

/-- Iteration of the outer loop of filtrar_desde_parrafo_inicio over the
snapshot of the items of the dictionary. -/
def procesaOrigenes (llamadas : Grafo) :
    Grafo → Grafo → Except Str Grafo
  | [], resultado => .ok resultado
  | (origen, destinos) :: t, resultado =>
    match procesaPendientes llamadas origen
        (destinos.length + 1) destinos.reverse resultado with
    | .error e => .error e
    | .ok r => procesaOrigenes llamadas t r

/-- Reachability filter of RoadMap.07.py.  The ok result carries the
filtered mapping and an optional diagnostic naming a missing start
paragraph; the error case is the uncaught Python KeyError, carrying the
offending key. -/
def filtrar_desde_parrafo_inicio (llamadas : Grafo) (parrafo_inicio : Str) :
    Except Str (Grafo × Option Str) :=
  if parrafo_inicio ∈ claves llamadas then
    match procesaOrigenes llamadas llamadas
        [(parrafo_inicio, (busca llamadas parrafo_inicio).getD [])] with
    | .error e => .error e
    | .ok r => .ok (r, none)
  else .ok ([], some parrafo_inicio)

end RoadMap07

namespace RoadMap07

/-- Scan state of analizar_cobol: the call graph, the SQL annotations, the
inside-PROCEDURE-DIVISION flag, the await-header-period local variable
modelled as an Option because the Python variable only exists after the
header was seen, the current paragraph and the SQL block counter. -/
structure EstadoScan where
  llamadas : Grafo
  selects : Grafo
  enProc : Bool
  esperaPunto : Option Bool
  parrafoActual : Str
  bloqueCount : Nat
deriving DecidableEq

/-- The state at the top of analizar_cobol. -/
def estadoInicial : EstadoScan :=
  { llamadas := [], selects := [], enProc := false, esperaPunto := none,
    parrafoActual := txt (r"__START__"), bloqueCount := 0 }

/-- One iteration of the reading loop of analizar_cobol on a nonempty
file: upper-case the line, skip ignorable lines, process SQL blocks before
anything else when SQL analysis is on, then the PROCEDURE DIVISION header
logic, then paragraph detection, then PERFORM detection.  Returns the next
state and the lines that remain, since a SQL block consumes lines from the
file iterator. -/
def scanStep (analizar_sql : Bool) (st : EstadoScan) :
    List Str → EstadoScan × List Str
  | [] => (st, [])
  | l :: rest =>
    let linea := pyUpper l
    if es_linea_ignorable linea then (st, rest)
    else if analizar_sql && contiene (pyUpper linea) (txt (r"EXEC SQL")) then
      let pr := procesar_bloque_sql rest st.parrafoActual st.selects
      ({ st with bloqueCount := st.bloqueCount + 1, selects := pr.1 }, pr.2)
    else if !st.enProc then
      if contiene (pyUpper linea) (txt (r"PROCEDURE DIVISION")) then
        ({ st with enProc := true,
                   esperaPunto := some (!contiene linea (txt (r"."))) }, rest)
      else (st, rest)
    else if st.enProc && st.esperaPunto = some true then
      (if contiene linea (txt (r".")) then { st with esperaPunto := some false }
       else st, rest)
    else
      match detectar_parrafo linea with
      | some nuevo =>
        ({ st with
             parrafoActual := nuevo,
             llamadas := if nuevo ∈ claves st.llamadas then st.llamadas
                         else st.llamadas ++ [(nuevo, [])] }, rest)
      | none =>
        if st.parrafoActual.isEmpty then (st, rest)
        else
          match detectar_perform linea with
          | some destino =>
            (if destino.isEmpty then st
             else { st with llamadas :=
                      setdefaultAnexa st.llamadas st.parrafoActual destino },
             rest)
          | none => (st, rest)

/-- The reading loop of analizar_cobol.  Every iteration consumes at least
the first remaining line, so the fuel chosen by analizar_cobol, one more
than the number of lines, is never exhausted. -/
def scanLines (analizar_sql : Bool) : Nat → EstadoScan → List Str → EstadoScan
  | 0, st, _ => st
  | _ + 1, st, [] => st
  | fuel + 1, st, l :: rest =>
    let pr := scanStep analizar_sql st (l :: rest)
    scanLines analizar_sql fuel pr.1 pr.2

/-- Main analysis of RoadMap.07.py over the lines of a file: run the scan,
optionally filter from the requested start paragraph with the uncaught
KeyError of the filter turned into the empty result of the surrounding
try-except, and keep the SQL annotations of the keys of the resulting
graph plus the sentinel. -/
def analizar_cobol (lineas : List Str) (parrafo_inicio : Option Str)
    (analizar_sql : Bool) : Grafo × Nat × Grafo :=
  let st := scanLines analizar_sql (lineas.length + 1) estadoInicial lineas
  let filtrado : Except Str Grafo :=
    match parrafo_inicio with
    | some p =>
      if p.isEmpty then .ok st.llamadas
      else
        match filtrar_desde_parrafo_inicio st.llamadas p with
        | .ok gr => .ok gr.1
        | .error e => .error e
    | none => .ok st.llamadas
  match filtrado with
  | .error _ => ([], 0, [])
  | .ok llamadas =>
    let selects :=
      if analizar_sql then
        st.selects.filter
          (fun kv => kv.1 ∈ claves llamadas || kv.1 = txt (r"__START__"))
      else []
    (llamadas, st.bloqueCount, selects)

/-- The four-line file of the claim C2 analysis: a SQL block lies entirely
before the PROCEDURE DIVISION header. -/
def archivoC2 : List Str :=
  [txt (r"       EXEC SQL"),
   txt (r"       SELECT A FROM T"),
   txt (r"       END-EXEC"),
   txt (r"       PROCEDURE DIVISION.")]

/-- Indentation of the tree serializer, three spaces per level. -/
def sangria : Nat → Str
  | 0 => []
  | n + 1 => txt (r"   ") ++ sangria n

/-- All node names of a graph: its keys and every destination. -/
def nodosDe (g : Grafo) : Finset Str :=
  g.foldr (fun kv acc => insert kv.1 (kv.2.foldr insert acc)) ∅

/-- Child loop of the tree serializer: render every child that is not in
the visited set, in order, appending the rendered lines; rec is the
renderer for one child. -/
def imprimirHijos (visitados : List Str) (rec : Str → Option (List Str)) :
    List Str → List Str → Option (List Str)
  | [], acc => some acc
  | hijo :: t, acc =>
    if hijo ∈ visitados then imprimirHijos visitados rec t acc
    else
      match rec hijo with
      | none => none
      | some sub => imprimirHijos visitados rec t (acc ++ sub)

/-- Tree serializer of RoadMap.07.py, producing the printed lines.  The
fuel bounds the recursion depth: the Python function has no such bound,
and the termination claim is that sufficient fuel always exists.  An empty
node name selects the first key of the graph, or the empty-dictionary
message; the visited set is passed down by value, so it is path-local
exactly as the copied set of the source. -/
def imprimir_arbol_llamadas :
    Nat → Grafo → Grafo → Str → Nat → List Str → Option (List Str)
  | 0, _, _, _, _, _ => none
  | fuel + 1, diccionario, selects_por_parrafo, nodo, nivel, visitados =>
    if nodo.isEmpty && diccionario.isEmpty then
      some [txt (r"Diccionario vacio. No hay llamadas que mostrar.")]
    else
      let nodo1 := if nodo.isEmpty then (claves diccionario).headD [] else nodo
      let indent := sangria nivel
      let linea := indent ++ nodo1
      let visitados1 := nodo1 :: visitados
      let sqlLineas :=
        match busca selects_por_parrafo nodo1 with
        | some sels => sels.map (fun sel => indent ++ txt (r"   - ") ++ sel)
        | none => []
      imprimirHijos visitados1
        (fun hijo =>
          imprimir_arbol_llamadas fuel diccionario selects_por_parrafo hijo
            (nivel + 1) visitados1)
        ((busca diccionario nodo1).getD []) (linea :: sqlLineas)

/-- The two-node cycle of claim C9. -/
def cicloC9 : Grafo := [(txt (r"A"), [txt (r"B")]), (txt (r"B"), [txt (r"A")])]

end RoadMap07

namespace Calls

/-- Line classifier of RoadMapCalls.py: whitespace-only lines and
column-seven comments are skipped. -/
def es_linea_ignorable (linea : Str) : Bool :=
  (pyStrip linea).isEmpty || (decide (6 < linea.length) && (linea.getD 6 ' ' = '*'))

/-- The single-quote character. -/
def comilla : Char := Char.ofNat 39

/-- Quote characters accepted around a program name. -/
def esComilla (c : Char) : Bool := c = comilla || c = '"'

/-- The character class of a program name in the regexes: word characters
and the hyphen. -/
def esGuionPalabra (c : Char) : Bool := isWordChar c || c = '-'

/-- Match of the CALL pattern at one position: a word boundary before the
literal CALL, at least one whitespace, an optional quote and the captured
name of word characters and hyphens. -/
def matchCallAt (prev : Option Char) (s : Str) : Option Str :=
  if (match prev with | none => true | some c => !isWordChar c) &&
     listStarts (txt (r"CALL")) s then
    let t := s.drop 4
    let sp := t.takeWhile pyIsSpace
    if sp.isEmpty then none
    else
      let u := t.drop sp.length
      let u2 := match u with
        | c :: rest => if esComilla c then rest else u
        | [] => u
      let w := u2.takeWhile esGuionPalabra
      if w.isEmpty then none else some w
  else none

/-- Leftmost search of the CALL pattern, carrying the previous character
for the word-boundary test. -/
def buscaCall : Option Char → Str → Option Str
  | _, [] => none
  | prev, c :: cs =>
    match matchCallAt prev (c :: cs) with
    | some w => some w
    | none => buscaCall (some c) cs

/-- Consume a nonempty whitespace run. -/
def saltaEspacios1 (s : Str) : Option Str :=
  let sp := s.takeWhile pyIsSpace
  if sp.isEmpty then none else some (s.drop sp.length)

/-- Match of the EXEC CICS pattern at one position: EXEC, CICS, one of
LINK, START or INVOKE, PROGRAM, an opening parenthesis with optional
whitespace before it, an optionally quoted captured name, and the closing
parenthesis. -/
def matchCicsAt (s : Str) : Option Str :=
  if listStarts (txt (r"EXEC")) s then
    match saltaEspacios1 (s.drop 4) with
    | none => none
    | some s1 =>
      if listStarts (txt (r"CICS")) s1 then
        match saltaEspacios1 (s1.drop 4) with
        | none => none
        | some s2 =>
          match
            (if listStarts (txt (r"LINK")) s2 then some (s2.drop 4)
             else if listStarts (txt (r"START")) s2 then some (s2.drop 5)
             else if listStarts (txt (r"INVOKE")) s2 then some (s2.drop 6)
             else none) with
          | none => none
          | some s3 =>
            match saltaEspacios1 s3 with
            | none => none
            | some s4 =>
              if listStarts (txt (r"PROGRAM")) s4 then
                match (s4.drop 7).dropWhile pyIsSpace with
                | '(' :: s6 =>
                  let s7 := match s6 with
                    | c :: rest => if esComilla c then rest else s6
                    | [] => s6
                  let w := s7.takeWhile esGuionPalabra
                  if w.isEmpty then none
                  else
                    let s8 := s7.drop w.length
                    let s9 := match s8 with
                      | c :: rest => if esComilla c then rest else s8
                      | [] => s8
                    match s9 with
                    | ')' :: _ => some w
                    | _ => none
                | _ => none
              else none
      else none
  else none

/-- Leftmost search of the EXEC CICS pattern. -/
def buscaCics : Str → Option Str
  | [] => none
  | c :: cs =>
    match matchCicsAt (c :: cs) with
    | some w => some w
    | none => buscaCics cs

/-- External call detector of RoadMapCalls.py: the CALL pattern is tried
first, then the EXEC CICS pattern whose capture is prefixed with CICS-. -/
def detectar_call (linea : Str) : Option Str :=
  let l := pyUpper linea
  match buscaCall none l with
  | some m => some m
  | none =>
    match buscaCics l with
    | some m => some (txt (r"CICS-") ++ m)
    | none => none

/-- Text after the last slash, the effect of os.path.basename on the
paths the tool receives. -/
def basename (ruta : Str) : Str :=
  ((ruta.reverse).takeWhile (fun c => !(c = '/'))).reverse

/-- Root of os.path.splitext: cut at the last period, except that the
leading periods of the name never start an extension. -/
def quitaExtension (nombre : Str) : Str :=
  let lead := nombre.takeWhile (fun c => c = '.')
  let rest := nombre.drop lead.length
  if contiene rest (txt (r".")) then
    lead ++ (((rest.reverse).dropWhile (fun c => !(c = '.'))).drop 1).reverse
  else nombre

/-- The single key of the mapping of analizar_cobol: the upper-cased base
name of the analyzed file without its extension. -/
def origenDe (ruta : Str) : Str := pyUpper (quitaExtension (basename ruta))

/-- Body of the reading loop of analizar_cobol of RoadMapCalls.py: skip
ignorable lines, append a detected call upper-cased under the origin
key. -/
def paso (ruta : Str) (llamadas : Grafo) (l : Str) : Grafo :=
  let linea := pyUpper l
  if es_linea_ignorable linea then llamadas
  else
    match detectar_call linea with
    | some destino => setdefaultAnexa llamadas (origenDe ruta) (pyUpper destino)
    | none => llamadas

/-- External call analysis of RoadMapCalls.py over the lines of a file:
every detected call is appended, upper-cased, under the single origin
key. -/
def analizar_cobol (ruta : Str) (lineas : List Str) : Grafo :=
  lineas.foldl (paso ruta) []

/-- The calls detected line by line, in source order and upper-cased, as
claim C10 describes them. -/
def llamadasDetectadas (lineas : List Str) : List Str :=
  lineas.filterMap
    (fun l =>
      let linea := pyUpper l
      if es_linea_ignorable linea then none
      else (detectar_call linea).map pyUpper)

/-- The mixed line of the C7 counterexample, carrying both a CALL and an
EXEC CICS statement. -/
def lineaMixtaC7 : Str := txt (r"CALL PGMA EXEC CICS LINK PROGRAM(PGMX)")

end Calls

example : RoadMap07.detectar_parrafo (txt (r"       PARA-1.")) =
    some (txt (r"PARA-1")) := by decide

example : RoadMap07.detectar_parrafo (txt (r"       MAIN SECTION.")) =
    some (txt (r"MAIN")) := by decide

example : RoadMap07.detectar_parrafo (txt (r"       ABSECTION")) = none := by
  decide

example : RoadMap07.detectar_parrafo (txt (r"       END-SECTION")) =
    some (txt (r"END-")) := by decide

example : RoadMap07.detectar_parrafo (txt (r"       A SECTIONS.")) = none := by
  decide

example : RoadMap07.detectar_parrafo (txt (r"      * COMENTARIO.")) = none := by
  decide

example : RoadMap07.detectar_parrafo (txt (r"       PERFORM PARA-1.")) =
    none := by decide

example : RoadMap07.detectar_parrafo (txt (r"       END-EXEC.")) = none := by
  decide

example : RoadMap07.detectar_perform (txt (r"       PERFORM PARA-1.")) =
    some (txt (r"PARA-1")) := by decide

example : RoadMap07.detectar_perform (txt (r"       PERFORM UNTIL X > 1")) =
    none := by decide

example : RoadMap07.detectar_perform (txt (r"       PERFORM")) = none := by
  decide

example : RoadMap07.detectar_perform (txt (r"       PERFORMX Y")) = none := by
  decide

/-- Claim C4: detectar_parrafo returns a name exactly under the four
conditions of the claim, stated as one conjunction in
detectar_parrafo_claim, and in that case returns the matched token. -/
theorem C4_holds (linea : Str) :
    RoadMap07.detectar_parrafo linea = RoadMap07.detectar_parrafo_claim linea := by
  unfold RoadMap07.detectar_parrafo RoadMap07.detectar_parrafo_claim
  split
  · rfl
  · split
    · rfl
    · split
      · by_cases hek : RoadMap07.empiezaConClave (linea.drop 7) = true
        · cases hm : RoadMap07.matchLabel (linea.drop 7) <;> simp [hek, hm]
        · cases hm : RoadMap07.matchLabel (linea.drop 7) with
          | none => simp [hek, hm]
          | some m =>
            by_cases hmem : pyUpper (pyStrip m) ∈ RoadMap07.excluidos <;>
              simp [hek, hm, hmem]
      · by_cases hek : RoadMap07.empiezaConClave (pyLstrip linea) = true
        · cases hm : RoadMap07.matchLabel (pyLstrip linea) <;> simp [hek, hm]
        · cases hm : RoadMap07.matchLabel (pyLstrip linea) with
          | none => simp [hek, hm]
          | some m =>
            by_cases hmem : pyUpper (pyStrip m) ∈ RoadMap07.excluidos <;>
              simp [hek, hm, hmem]

/-- A translation table whose entries are never whitespace preserves the
whitespace predicate. -/
theorem buscaParSpace : ∀ tabla : List (Char × Char),
    (∀ p ∈ tabla, pyIsSpace p.1 = false ∧ pyIsSpace p.2 = false) →
    ∀ c, pyIsSpace (buscaPar tabla c) = pyIsSpace c := by
  intro tabla
  induction tabla with
  | nil => intro _ c; rfl
  | cons p t ih =>
    intro h c
    obtain ⟨a, b⟩ := p
    have hab := h (a, b) (by simp)
    have ht : ∀ q ∈ t, pyIsSpace q.1 = false ∧ pyIsSpace q.2 = false :=
      fun q hq => h q (by simp [hq])
    simp only [] at hab
    by_cases hc : c = a
    · subst hc
      simp [buscaPar, hab.1, hab.2]
    · simp only [buscaPar, if_neg hc]
      exact ih ht c

/-- Uppercasing a character preserves whether it is whitespace. -/
theorem upperSpace (c : Char) : pyIsSpace (pyUpperC c) = pyIsSpace c := by
  unfold pyUpperC
  exact buscaParSpace _ (by decide) c

/-- dropWhile commutes with mapping a function under which the predicate
is invariant. -/
theorem dropWhileMapa (f : Char → Char) (p : Char → Bool)
    (hp : ∀ c, p (f c) = p c) :
    ∀ l : Str, (l.map f).dropWhile p = (l.dropWhile p).map f := by
  intro l
  induction l with
  | nil => rfl
  | cons c cs ih =>
    by_cases h : p c = true
    · simp [List.dropWhile_cons, hp, h, ih]
    · simp [List.dropWhile_cons, hp, h]

/-- Uppercasing commutes with stripping. -/
theorem upperStrip (l : Str) : pyUpper (pyStrip l) = pyStrip (pyUpper l) := by
  unfold pyStrip pyLstrip pyRstrip pyUpper
  rw [← dropWhileMapa pyUpperC pyIsSpace upperSpace, List.map_reverse,
      ← dropWhileMapa pyUpperC pyIsSpace upperSpace, List.map_reverse]

/-- Leading whitespace does not change the result of splitting. -/
theorem splitLstripEq : ∀ l : Str,
    pySplitAcc [] (l.dropWhile pyIsSpace) = pySplitAcc [] l := by
  intro l
  induction l with
  | nil => rfl
  | cons c cs ih =>
    by_cases h : pyIsSpace c = true
    · simp [List.dropWhile_cons, h, pySplitAcc, ih]
    · simp [List.dropWhile_cons, h]

/-- Splitting an all-whitespace line only flushes the pending word. -/
theorem todoEspacioSplit : ∀ t : Str, (∀ c ∈ t, pyIsSpace c = true) →
    ∀ acc : Str,
      pySplitAcc acc t = if acc.isEmpty then [] else [acc.reverse] := by
  intro t
  induction t with
  | nil => intro _ acc; rfl
  | cons c cs ih =>
    intro h acc
    have hc : pyIsSpace c = true := h c (by simp)
    have hcs : ∀ d ∈ cs, pyIsSpace d = true := fun d hd => h d (by simp [hd])
    by_cases ha : acc.isEmpty = true
    · simp [pySplitAcc, hc, ha, ih hcs]
    · simp [pySplitAcc, hc, ha, ih hcs]

/-- Trailing whitespace does not change the result of splitting. -/
theorem splitMasEspacios (t : Str) (ht : ∀ c ∈ t, pyIsSpace c = true) :
    ∀ s acc : Str, pySplitAcc acc (s ++ t) = pySplitAcc acc s := by
  intro s
  induction s with
  | nil =>
    intro acc
    rw [List.nil_append, todoEspacioSplit t ht acc]
    rfl
  | cons c cs ih =>
    intro acc
    by_cases hc : pyIsSpace c = true
    · by_cases ha : acc.isEmpty = true <;> simp [pySplitAcc, hc, ha, ih]
    · simp [pySplitAcc, hc, ih]

/-- The remainder after the stripped text is all whitespace, so a line is
its right-stripped part followed by whitespace. -/
theorem rstripDescomp (l : Str) :
    pyRstrip l ++ (l.reverse.takeWhile pyIsSpace).reverse = l := by
  unfold pyRstrip
  rw [← List.reverse_append, List.takeWhile_append_dropWhile,
      List.reverse_reverse]

/-- Right-stripping does not change the result of splitting. -/
theorem splitRstripEq (l : Str) : pySplit (pyRstrip l) = pySplit l := by
  unfold pySplit
  conv_rhs => rw [← rstripDescomp l]
  rw [splitMasEspacios _ ?_ _ _]
  intro c hc
  exact List.mem_takeWhile_imp (List.mem_reverse.mp hc)

/-- Stripping does not change the result of splitting. -/
theorem splitStripEq (l : Str) : pySplit (pyStrip l) = pySplit l := by
  have h1 : pySplit (pyStrip l) = pySplit (pyRstrip l) := splitLstripEq (pyRstrip l)
  rw [h1, splitRstripEq]

/-- Splitting the upper-cased stripped line gives the same tokens as
splitting the upper-cased line. -/
theorem splitUpperStrip (l : Str) :
    pySplit (pyUpper (pyStrip l)) = pySplit (pyUpper l) := by
  rw [upperStrip, splitStripEq]

/-- Every token produced by splitting occurs inside the line. -/
theorem splitEsInfijo : ∀ s acc t : Str, t ∈ pySplitAcc acc s →
    ∃ u v, acc.reverse ++ s = u ++ t ++ v := by
  intro s
  induction s with
  | nil =>
    intro acc t ht
    by_cases ha : acc.isEmpty = true
    · simp [pySplitAcc, ha] at ht
    · simp [pySplitAcc, ha] at ht
      exact ⟨[], [], by simp [ht]⟩
  | cons c cs ih =>
    intro acc t ht
    by_cases hc : pyIsSpace c = true
    · by_cases ha : acc.isEmpty = true
      · simp [pySplitAcc, hc, ha] at ht
        obtain ⟨u, v, huv⟩ := ih [] t ht
        have hacc : acc = [] := List.isEmpty_iff.mp ha
        simp only [List.reverse_nil, List.nil_append] at huv
        exact ⟨c :: u, v, by simp [hacc, huv]⟩
      · simp [pySplitAcc, hc, ha] at ht
        rcases ht with h | h
        · exact ⟨[], c :: cs, by simp [h]⟩
        · obtain ⟨u, v, huv⟩ := ih [] t h
          simp only [List.reverse_nil, List.nil_append] at huv
          exact ⟨acc.reverse ++ c :: u, v, by simp [huv]⟩
    · simp [pySplitAcc, hc] at ht
      obtain ⟨u, v, huv⟩ := ih (c :: acc) t ht
      refine ⟨u, v, ?_⟩
      rw [← huv]
      simp

/-- A list is a left factor of itself followed by anything. -/
theorem startsSelf : ∀ t v : Str, listStarts t (t ++ v) = true := by
  intro t
  induction t with
  | nil => intro v; rfl
  | cons c cs ih => intro v; simp [listStarts, ih]

/-- Containment holds for any decomposition witness. -/
theorem contieneDeInfijo : ∀ u t v s : Str, s = u ++ t ++ v →
    contiene s t = true := by
  intro u
  induction u with
  | nil =>
    intro t v s hs
    subst hs
    rw [List.nil_append]
    cases e : t ++ v with
    | nil =>
      have ht : t = [] := (List.append_eq_nil.mp e).1
      simp [contiene, ht]
    | cons c cs =>
      have hst : listStarts t (c :: cs) = true := e ▸ startsSelf t v
      simp [contiene, hst]
  | cons x u ih =>
    intro t v s hs
    subst hs
    have hrec := ih t v (u ++ t ++ v) rfl
    rw [List.append_assoc] at hrec
    simp [contiene, hrec]

/-- The index search fails exactly when the element is absent. -/
theorem indiceNoneIff (x : Str) : ∀ l : List Str,
    indiceDe x l = none ↔ x ∉ l := by
  intro l
  induction l with
  | nil => simp [indiceDe]
  | cons y ys ih =>
    by_cases h : y = x
    · simp [indiceDe, h]
    · have hxy : ¬ x = y := fun he => h he.symm
      simp [indiceDe, h, Option.map_eq_none', ih, hxy]

/-- Claim C5: detectar_perform behaves exactly as the claim describes on
every line: tokenization of the upper-cased line, first token after
PERFORM with trailing periods stripped, continuation words rejected, and
nothing when PERFORM is absent or last. -/
theorem C5_holds (linea : Str) :
    RoadMap07.detectar_perform linea = RoadMap07.detectar_perform_claim linea := by
  unfold RoadMap07.detectar_perform RoadMap07.detectar_perform_claim
  by_cases hc : contiene (pyUpper linea) (txt (r"PERFORM")) = true
  · simp only [hc, if_true, splitUpperStrip]
  · simp only [hc, if_false]
    have hnm : txt (r"PERFORM") ∉ pySplit (pyUpper linea) := by
      intro hmem
      obtain ⟨u, v, huv⟩ := splitEsInfijo (pyUpper linea) [] (txt (r"PERFORM")) hmem
      simp only [List.reverse_nil, List.nil_append] at huv
      exact hc (contieneDeInfijo u (txt (r"PERFORM")) v (pyUpper linea) huv)
    have hidx : indiceDe (txt (r"PERFORM")) (pySplit (pyUpper linea)) = none :=
      (indiceNoneIff _ _).mpr hnm
    simp [hidx]

/-- The claim states the line is ignorable exactly when it is empty or
whitespace-only, or is a column-seven comment; the code only tests
emptiness, so a single blank is whitespace-only yet not ignorable. -/
theorem C3_claim_false :
    RoadMap07.es_linea_ignorable (txt (r" ")) = false ∧
    pyStrip (txt (r" ")) = [] := by
  constructor
  · rfl
  · rfl

/-- Amended claim C3: es_linea_ignorable returns true exactly when the line
is the empty string, or the line has at least 7 characters and holds a star
at zero-indexed position 6. -/
theorem C3_amended_holds (linea : Str) :
    RoadMap07.es_linea_ignorable linea = true ↔
      (linea = [] ∨ (7 ≤ linea.length ∧ linea.getD 6 ' ' = '*')) := by
  simp [RoadMap07.es_linea_ignorable, List.isEmpty_iff]

example : RoadMap07.extraer_sentencias_sql (txt (r"SELECT A FROM T")) =
    [(txt (r"SELECT"), txt (r"T"))] := by decide

example : RoadMap07.extraer_sentencias_sql
      (txt (r"OPEN CUR1 FETCH CUR1 CLOSE CUR1")) =
    [(txt (r"OPEN CURSOR"), txt (r"CUR1")),
     (txt (r"CLOSE CURSOR"), txt (r"CUR1")),
     (txt (r"FETCH CURSOR"), txt (r"CUR1"))] := by decide

example : RoadMap07.extraer_sentencias_sql (txt (r"COMMIT WORK")) =
    [(txt (r"COMMIT"), [])] := by decide

/-- Claim C6: the one-line block with a SELECT from CUSTOMERS yields
exactly the single annotation SELECT-ellipsis-CUSTOMERS on paragraph P1
and no statement of any other kind. -/
theorem C6_holds :
    RoadMap07.extraer_sentencias_sql
        (txt (r"EXEC SQL SELECT A, B FROM CUSTOMERS END-EXEC")) =
      [(txt (r"SELECT"), txt (r"CUSTOMERS"))] ∧
    RoadMap07.procesar_bloque_sql
        [txt (r"EXEC SQL SELECT A, B FROM CUSTOMERS END-EXEC")]
        (txt (r"P1")) [] =
      ([(txt (r"P1"), [txt (r"SELECT ... CUSTOMERS")])], []) := by
  constructor
  · decide
  · decide

/-- Claim C1 fails on the code: on the chain graph A to B to C with start
A, the filter hits the dictionary access resultado at key B, which was
never inserted, and raises KeyError B instead of returning a graph that
contains the reachable nodes A, B and C. -/
theorem C1_code_bug_eval :
    RoadMap07.filtrar_desde_parrafo_inicio
        [(txt (r"A"), [txt (r"B")]), (txt (r"B"), [txt (r"C")]),
         (txt (r"C"), [])] (txt (r"A")) =
      .error (txt (r"B")) := by
  rfl

/-- Claim C8: when the start paragraph is not a key of the graph the
filter returns the empty graph together with the does-not-exist
diagnostic, and no error is raised. -/
theorem C8_holds (llamadas : Grafo) (parrafo_inicio : Str)
    (h : parrafo_inicio ∉ claves llamadas) :
    RoadMap07.filtrar_desde_parrafo_inicio llamadas parrafo_inicio =
      .ok ([], some parrafo_inicio) := by
  unfold RoadMap07.filtrar_desde_parrafo_inicio
  rw [if_neg h]

/-- Witness for claim C8 at a concrete graph and missing start name. -/
theorem C8_witness :
    RoadMap07.filtrar_desde_parrafo_inicio
        [(txt (r"A"), [txt (r"B")])] (txt (r"NOPE")) =
      .ok ([], some (txt (r"NOPE"))) :=
  C8_holds _ _ (by decide)

/-- A missing key looks up to nothing. -/
theorem buscaNoneSinClave : ∀ (g : Grafo) (x : Str),
    x ∉ claves g → busca g x = none := by
  intro g
  induction g with
  | nil => intro x _; rfl
  | cons kv t ih =>
    intro x hx
    obtain ⟨k, v⟩ := kv
    have hk : ¬ k = x := by
      intro he
      exact hx (by simp [claves, he])
    have ht : x ∉ claves t := fun hm => hx (by simp [claves] at hm ⊢; exact Or.inr hm)
    simp [busca, hk, ih x ht]

/-- The fuel of the pendientes loop is irrelevant once it exceeds the
number of pending destinations: the loop pops one element per iteration
and the extend of the source appends the successors of a non-key, which is
the empty default. -/
theorem procesaPendientesFuel (llamadas : Grafo) (origen : Str) :
    ∀ (ps : List Str) (fuel1 fuel2 : Nat) (r : Grafo),
      ps.length < fuel1 → ps.length < fuel2 →
      RoadMap07.procesaPendientes llamadas origen fuel1 ps r =
        RoadMap07.procesaPendientes llamadas origen fuel2 ps r := by
  intro ps
  induction ps with
  | nil =>
    intro fuel1 fuel2 r h1 h2
    match fuel1, fuel2 with
    | 0, _ => exact absurd h1 (by simp)
    | _ + 1, 0 => exact absurd h2 (by simp)
    | _ + 1, _ + 1 => rfl
  | cons destino t ih =>
    intro fuel1 fuel2 r h1 h2
    match fuel1, fuel2 with
    | 0, _ => exact absurd h1 (by omega)
    | _ + 1, 0 => exact absurd h2 (by omega)
    | f1 + 1, f2 + 1 =>
      simp only [RoadMap07.procesaPendientes]
      by_cases hres : destino ∈ claves r
      · simp only [hres, if_true]
        exact ih f1 f2 r (by simp at h1; omega) (by simp at h2; omega)
      · by_cases hll : destino ∈ claves llamadas
        · simp only [hres, hll, if_true, if_false]
          by_cases hor : origen ∈ claves r
          · simp only [hor, if_true]
            exact ih f1 f2 _ (by simp at h1; omega) (by simp at h2; omega)
          · simp [hor]
        · have hb : busca llamadas destino = none := buscaNoneSinClave _ _ hll
          simp only [hres, hll, if_false, hb, Option.getD_none, List.reverse_nil,
            List.nil_append]
          exact ih f1 f2 r (by simp at h1; omega) (by simp at h2; omega)

/-- The remaining file after reading a SQL block is no longer than the
file the block was read from. -/
theorem leerBloqueResto : ∀ ls : List Str,
    ((RoadMap07.leerBloque ls).2).length ≤ ls.length := by
  intro ls
  induction ls with
  | nil => simp [RoadMap07.leerBloque]
  | cons l t ih =>
    by_cases h : contiene (pyUpper l) (txt (r"END-EXEC")) = true
    · simp [RoadMap07.leerBloque, h]
    · simp only [RoadMap07.leerBloque]
      rw [if_neg h]
      simp only [List.length_cons]
      exact Nat.le_succ_of_le ih

/-- Every iteration of the reading loop consumes at least one line. -/
theorem scanStepConsume (sql : Bool) (st : RoadMap07.EstadoScan) (l : Str)
    (rest : List Str) :
    ((RoadMap07.scanStep sql st (l :: rest)).2).length ≤ rest.length := by
  simp only [RoadMap07.scanStep]
  by_cases h1 : RoadMap07.es_linea_ignorable (pyUpper l) = true
  · simp [h1]
  · by_cases h2 : (sql && contiene (pyUpper (pyUpper l)) (txt (r"EXEC SQL"))) = true
    · simp only [h1, h2, if_true, if_false, RoadMap07.procesar_bloque_sql]
      exact leerBloqueResto rest
    · simp only [h1, h2, if_false]
      repeat' split
      all_goals simp

/-- The fuel of the reading loop is irrelevant once it exceeds the number
of lines, since every iteration consumes at least one line. -/
theorem scanLinesFuel (sql : Bool) :
    ∀ (fuel1 fuel2 : Nat) (st : RoadMap07.EstadoScan) (lineas : List Str),
      lineas.length < fuel1 → lineas.length < fuel2 →
      RoadMap07.scanLines sql fuel1 st lineas =
        RoadMap07.scanLines sql fuel2 st lineas := by
  intro fuel1
  induction fuel1 with
  | zero => intro fuel2 st lineas h1 _; exact absurd h1 (by omega)
  | succ f1 ih =>
    intro fuel2 st lineas h1 h2
    match fuel2, lineas with
    | 0, _ => exact absurd h2 (by omega)
    | f2 + 1, [] => rfl
    | f2 + 1, l :: rest =>
      simp only [RoadMap07.scanLines]
      have hcons := scanStepConsume sql st l rest
      simp only [List.length_cons] at h1 h2
      exact ih f2 _ _ (by omega) (by omega)

/-- Claim C2 fails on the code: with SQL analysis on, a SQL block placed
entirely before the PROCEDURE DIVISION header does increment the block
counter and does record its annotation, because the EXEC SQL test comes
before the phase test in the reading loop. -/
theorem C2_claim_false :
    (RoadMap07.analizar_cobol RoadMap07.archivoC2 none true).2.1 = 1 ∧
    (RoadMap07.analizar_cobol RoadMap07.archivoC2 none true).2.2 ≠ [] := by
  constructor
  · decide
  · decide

/-- Amended claim C2: before the scan enters the body of the PROCEDURE
DIVISION no line changes the call graph, but an EXEC SQL block is
processed wherever it appears when SQL analysis is enabled: on the
concrete file whose SQL block precedes the header, the block counter ends
at one and the annotation is recorded under the sentinel paragraph. -/
theorem C2_amended_holds :
    (∀ (sql : Bool) (st : RoadMap07.EstadoScan) (l : Str) (rest : List Str),
      st.enProc = false ∨ st.esperaPunto = some true →
      ((RoadMap07.scanStep sql st (l :: rest)).1).llamadas = st.llamadas) ∧
    RoadMap07.analizar_cobol RoadMap07.archivoC2 none true =
      ([], 1, [(txt (r"__START__"), [txt (r"SELECT ... T")])]) := by
  constructor
  · intro sql st l rest h
    simp only [RoadMap07.scanStep]
    by_cases h1 : RoadMap07.es_linea_ignorable (pyUpper l) = true
    · simp [h1]
    · by_cases h2 : (sql && contiene (pyUpper (pyUpper l)) (txt (r"EXEC SQL"))) = true
      · simp [h1, h2]
      · by_cases h3 : st.enProc = true
        · have hesp : st.esperaPunto = some true := by
            rcases h with h | h
            · rw [h] at h3; exact absurd h3 (by simp)
            · exact h
          by_cases h4 : contiene (pyUpper l) (txt (r".")) = true <;>
            simp [h1, h2, h3, hesp, h4]
        · by_cases h4 :
              contiene (pyUpper (pyUpper l)) (txt (r"PROCEDURE DIVISION")) = true <;>
            simp [h1, h2, h3, h4]
  · decide

/-- Witness for the universally quantified part of the amended claim C2,
at the initial state, which is before the procedure division. -/
theorem C2_amended_witness :
    ((RoadMap07.scanStep true RoadMap07.estadoInicial
        [txt (r"       MOVE A TO B")]).1).llamadas =
      RoadMap07.estadoInicial.llamadas :=
  C2_amended_holds.1 true RoadMap07.estadoInicial (txt (r"       MOVE A TO B")) []
    (Or.inl rfl)

/-- Membership in a fold of insertions, from the base set. -/
theorem memFoldrInsertBase {x : Str} (s : Finset Str) :
    ∀ l : List Str, x ∈ s → x ∈ l.foldr insert s := by
  intro l
  induction l with
  | nil => intro h; exact h
  | cons a t ih => intro h; exact Finset.mem_insert_of_mem (ih h)

/-- Membership in a fold of insertions, from the inserted list. -/
theorem memFoldrInsertMem {x : Str} (s : Finset Str) :
    ∀ l : List Str, x ∈ l → x ∈ l.foldr insert s := by
  intro l
  induction l with
  | nil => intro h; cases h
  | cons a t ih =>
    intro h
    rcases List.mem_cons.mp h with h | h
    · subst h; exact Finset.mem_insert_self _ _
    · exact Finset.mem_insert_of_mem (ih h)

/-- Every destination reached through a key belongs to the node set of the
graph. -/
theorem buscaMemNodos : ∀ (g : Grafo) (nodo hijo : Str),
    hijo ∈ (busca g nodo).getD [] → hijo ∈ RoadMap07.nodosDe g := by
  intro g
  induction g with
  | nil => intro nodo hijo h; simp [busca] at h
  | cons kv t ih =>
    intro nodo hijo h
    obtain ⟨k, vs⟩ := kv
    show hijo ∈ insert k (vs.foldr insert (RoadMap07.nodosDe t))
    by_cases hk : k = nodo
    · simp only [busca, if_pos hk, Option.getD_some] at h
      exact Finset.mem_insert_of_mem (memFoldrInsertMem _ vs h)
    · simp only [busca, if_neg hk] at h
      exact Finset.mem_insert_of_mem (memFoldrInsertBase _ vs (ih nodo hijo h))

/-- The child loop of the serializer succeeds when rendering every not yet
visited child succeeds. -/
theorem imprimirHijosAlgo (visitados : List Str) (rec : Str → Option (List Str)) :
    ∀ hijos acc : List Str,
      (∀ hijo ∈ hijos, hijo ∉ visitados → (rec hijo).isSome = true) →
      (RoadMap07.imprimirHijos visitados rec hijos acc).isSome = true := by
  intro hijos
  induction hijos with
  | nil => intro acc _; rfl
  | cons hijo t ih =>
    intro acc h
    unfold RoadMap07.imprimirHijos
    by_cases hv : hijo ∈ visitados
    · rw [if_pos hv]
      exact ih acc (fun x hx hnx => h x (by simp [hx]) hnx)
    · rw [if_neg hv]
      have hsome := h hijo (by simp) hv
      cases hrec : rec hijo with
      | none => rw [hrec] at hsome; simp at hsome
      | some sub =>
        exact ih (acc ++ sub) (fun x hx hnx => h x (by simp [hx]) hnx)

/-- Claim C9: the serializer terminates on every finite call graph of
nonempty node names, cycles included, because the path-local visited set
grows strictly along every path; fuel one past the number of nodes not yet
visited always suffices.  On the two-node cycle the root is printed and
the partner appears exactly once below it. -/
theorem C9_holds :
    (∀ (fuel : Nat) (dicc selects : Grafo) (nodo : Str) (nivel : Nat)
        (visitados : List Str),
      nodo ∉ visitados → nodo ≠ [] → ([] : Str) ∉ RoadMap07.nodosDe dicc →
      (insert nodo (RoadMap07.nodosDe dicc) \ visitados.toFinset).card < fuel →
      (RoadMap07.imprimir_arbol_llamadas fuel dicc selects nodo nivel
          visitados).isSome = true) ∧
    RoadMap07.imprimir_arbol_llamadas 3 RoadMap07.cicloC9 [] (txt (r"A")) 0 [] =
      some [txt (r"A"), txt (r"   B")] := by
  constructor
  · intro fuel
    induction fuel with
    | zero =>
      intro dicc selects nodo nivel visitados _ _ _ hcard
      exact absurd hcard (Nat.not_lt_zero _)
    | succ fuel ih =>
      intro dicc selects nodo nivel visitados hnv hne hvacio hcard
      have hempty : nodo.isEmpty = false := by
        cases nodo with
        | nil => exact absurd rfl hne
        | cons c cs => rfl
      unfold RoadMap07.imprimir_arbol_llamadas
      rw [hempty]
      simp only [Bool.false_and, Bool.false_eq_true, if_false, if_neg]
      apply imprimirHijosAlgo
      intro hijo hmem hnv1
      have hhijoN : hijo ∈ RoadMap07.nodosDe dicc :=
        buscaMemNodos dicc nodo hijo hmem
      have hne1 : hijo ≠ [] := fun he => hvacio (he ▸ hhijoN)
      apply ih dicc selects hijo (nivel + 1) (nodo :: visitados) hnv1 hne1 hvacio
      have hnodoS : nodo ∈ insert nodo (RoadMap07.nodosDe dicc) \ visitados.toFinset := by
        rw [Finset.mem_sdiff]
        exact ⟨Finset.mem_insert_self _ _, fun hc => hnv (List.mem_toFinset.mp hc)⟩
      have hsub : insert hijo (RoadMap07.nodosDe dicc) \ (nodo :: visitados).toFinset ⊆
          (insert nodo (RoadMap07.nodosDe dicc) \ visitados.toFinset).erase nodo := by
        intro x hx
        simp only [Finset.mem_sdiff, Finset.mem_insert, List.toFinset_cons,
          Finset.mem_erase, not_or] at hx ⊢
        refine ⟨hx.2.1, ?_, hx.2.2⟩
        rcases hx.1 with h | h
        · exact Or.inr (h ▸ hhijoN)
        · exact Or.inr h
      have hcard2 := Finset.card_le_card hsub
      rw [Finset.card_erase_of_mem hnodoS] at hcard2
      have hpos : 0 < (insert nodo (RoadMap07.nodosDe dicc) \ visitados.toFinset).card :=
        Finset.card_pos.mpr ⟨nodo, hnodoS⟩
      omega
  · decide

/-- Witness for claim C9 at the two-node cycle, with fuel one past the
number of nodes. -/
theorem C9_witness :
    (RoadMap07.imprimir_arbol_llamadas 3 RoadMap07.cicloC9 [] (txt (r"A")) 0
        []).isSome = true :=
  C9_holds.1 3 RoadMap07.cicloC9 [] (txt (r"A")) 0 [] (by decide) (by decide)
    (by decide) (by decide)

example : Calls.detectar_call
      (txt (r"CALL ") ++ Calls.comilla :: (txt (r"PGMA") ++ [Calls.comilla])) =
    some (txt (r"PGMA")) := by decide

example : Calls.detectar_call (txt (r"           CALL WS-WORK-PGMB")) =
    some (txt (r"WS-WORK-PGMB")) := by decide

example : Calls.detectar_call (txt (r"       MOVE A TO B")) = none := by decide

example : Calls.detectar_call
      (txt (r"       EXEC CICS START PROGRAM(PGMY) END-EXEC")) =
    some (txt (r"CICS-PGMY")) := by decide

/-- Claim C7 fails on the code as universally stated: a line that matches
the EXEC CICS pattern but also matches the CALL pattern, which the
function tries first, yields the bare CALL target rather than the
CICS-prefixed program name. -/
theorem C7_claim_false :
    Calls.buscaCics (pyUpper Calls.lineaMixtaC7) = some (txt (r"PGMX")) ∧
    Calls.detectar_call Calls.lineaMixtaC7 = some (txt (r"PGMA")) ∧
    Calls.detectar_call Calls.lineaMixtaC7 ≠ some (txt (r"CICS-PGMX")) := by
  refine ⟨by decide, by decide, by decide⟩

/-- Amended claim C7: on every line matching EXEC CICS LINK, START or
INVOKE PROGRAM with a quoted or bare name and on which the CALL pattern,
tried first, finds no match, detectar_call returns the program name
prefixed with CICS-, a node name distinct from the bare name. -/
theorem C7_amended_holds (linea nm : Str)
    (h1 : Calls.buscaCics (pyUpper linea) = some nm)
    (h2 : Calls.buscaCall none (pyUpper linea) = none) :
    Calls.detectar_call linea = some (txt (r"CICS-") ++ nm) ∧
    txt (r"CICS-") ++ nm ≠ nm := by
  constructor
  · unfold Calls.detectar_call
    simp [h1, h2]
  · intro he
    have hlen := congrArg List.length he
    rw [List.length_append] at hlen
    have h5 : (txt (r"CICS-")).length = 5 := rfl
    omega

/-- Witness for the amended claim C7 at a plain CICS LINK line. -/
theorem C7_amended_witness :
    Calls.detectar_call (txt (r"EXEC CICS LINK PROGRAM(PGMX) END-EXEC")) =
        some (txt (r"CICS-") ++ txt (r"PGMX")) ∧
      txt (r"CICS-") ++ txt (r"PGMX") ≠ txt (r"PGMX") :=
  C7_amended_holds _ _ (by decide) (by decide)

/-- Inner fold of the external call analyzer once the single origin key
exists: every further detected call is appended to its list. -/
theorem foldUnaClave (ruta : Str) : ∀ (lineas : List Str) (cs : List Str),
    lineas.foldl (Calls.paso ruta) [(Calls.origenDe ruta, cs)] =
      [(Calls.origenDe ruta, cs ++ Calls.llamadasDetectadas lineas)] := by
  intro lineas
  induction lineas with
  | nil => intro cs; simp [Calls.llamadasDetectadas]
  | cons l t ih =>
    intro cs
    rw [List.foldl_cons]
    by_cases hig : Calls.es_linea_ignorable (pyUpper l) = true
    · have hpaso : Calls.paso ruta [(Calls.origenDe ruta, cs)] l =
          [(Calls.origenDe ruta, cs)] := by
        simp [Calls.paso, hig]
      have hl : Calls.llamadasDetectadas (l :: t) = Calls.llamadasDetectadas t := by
        simp [Calls.llamadasDetectadas, List.filterMap_cons, hig]
      rw [hpaso, ih, hl]
    · cases hdet : Calls.detectar_call (pyUpper l) with
      | none =>
        have hpaso : Calls.paso ruta [(Calls.origenDe ruta, cs)] l =
            [(Calls.origenDe ruta, cs)] := by
          simp [Calls.paso, hig, hdet]
        have hl : Calls.llamadasDetectadas (l :: t) = Calls.llamadasDetectadas t := by
          simp [Calls.llamadasDetectadas, List.filterMap_cons, hig, hdet]
        rw [hpaso, ih, hl]
      | some d =>
        have hpaso : Calls.paso ruta [(Calls.origenDe ruta, cs)] l =
            [(Calls.origenDe ruta, cs ++ [pyUpper d])] := by
          simp [Calls.paso, hig, hdet, setdefaultAnexa, claves, anexa]
        have hl : Calls.llamadasDetectadas (l :: t) =
            pyUpper d :: Calls.llamadasDetectadas t := by
          simp [Calls.llamadasDetectadas, List.filterMap_cons, hig, hdet]
        rw [hpaso, ih, hl]
        simp [List.append_assoc]

/-- Claim C10: the mapping of the external call analyzer is empty when no
call is detected, and otherwise holds the single origin key, the
upper-cased base name of the file without extension, with every detected
call appended upper-cased in source order. -/
theorem C10_holds (ruta : Str) (lineas : List Str) :
    Calls.analizar_cobol ruta lineas =
      if Calls.llamadasDetectadas lineas = [] then []
      else [(Calls.origenDe ruta, Calls.llamadasDetectadas lineas)] := by
  unfold Calls.analizar_cobol
  induction lineas with
  | nil => simp [Calls.llamadasDetectadas]
  | cons l t ih =>
    rw [List.foldl_cons]
    by_cases hig : Calls.es_linea_ignorable (pyUpper l) = true
    · have hpaso : Calls.paso ruta [] l = [] := by simp [Calls.paso, hig]
      have hl : Calls.llamadasDetectadas (l :: t) = Calls.llamadasDetectadas t := by
        simp [Calls.llamadasDetectadas, List.filterMap_cons, hig]
      rw [hpaso, ih, hl]
    · cases hdet : Calls.detectar_call (pyUpper l) with
      | none =>
        have hpaso : Calls.paso ruta [] l = [] := by simp [Calls.paso, hig, hdet]
        have hl : Calls.llamadasDetectadas (l :: t) = Calls.llamadasDetectadas t := by
          simp [Calls.llamadasDetectadas, List.filterMap_cons, hig, hdet]
        rw [hpaso, ih, hl]
      | some d =>
        have hpaso : Calls.paso ruta [] l =
            [(Calls.origenDe ruta, [pyUpper d])] := by
          simp [Calls.paso, hig, hdet, setdefaultAnexa, claves]
        have hl : Calls.llamadasDetectadas (l :: t) =
            pyUpper d :: Calls.llamadasDetectadas t := by
          simp [Calls.llamadasDetectadas, List.filterMap_cons, hig, hdet]
        rw [hpaso, foldUnaClave ruta t [pyUpper d], hl]
        simp
